import Mathlib

/-!
Verification of the debate orchestration core of `debate_watcher.py`.

The session store (directory `./debate` of text files) is modelled as a
record of the file contents; the external agent CLIs are modelled by the
outputs they return (an oracle), and the process-invocation layer by the
trace of observable actions it performs.  All functions are translated
line by line from `src/debate_watcher.py`.
-/

namespace DebateWatcher

/-! ### Python string primitives used by the source -/

/-- Python whitespace, the character class removed by `str.strip()`. -/
def pyIsSpace (c : Char) : Bool :=
  c = ' ' || c = '\t' || c = '\n' || c = '\r' || c = '\x0b' || c = '\x0c'

/-- Python `str.strip()`: remove whitespace from both ends. -/
def pyStrip (s : String) : String :=
  ⟨((s.data.dropWhile pyIsSpace).reverse.dropWhile pyIsSpace).reverse⟩

/-- Python `str.upper()` on the ASCII range (the source only ever compares
against the ASCII marker `"CONSENSUS REACHED"`). -/
def pyUpper (s : String) : String :=
  ⟨s.data.map Char.toUpper⟩

/-- One step of substring search: does `pat` occur in `l`?  This is Python's
`pat in l` on the character lists. -/
def containsSub (pat : List Char) : List Char → Bool
  | [] => pat.isEmpty
  | c :: rest => pat.isPrefixOf (c :: rest) || containsSub pat rest

/-- Python `sub in s`. -/
def pyContains (s sub : String) : Bool :=
  containsSub sub.data s.data

/-- Non-overlapping occurrence count, fuelled so that it is structural (the
fuel is the length of the scanned list, which always suffices).  This is
Python's `str.count` for a non-empty pattern. -/
def countSubAux (pat : List Char) : Nat → List Char → Nat
  | _, [] => 0
  | 0, _ => 0
  | fuel + 1, c :: rest =>
    if pat.isPrefixOf (c :: rest) then
      countSubAux pat fuel (rest.drop (pat.length - 1)) + 1
    else
      countSubAux pat fuel rest

/-- Python `s.count(pat)` for the non-empty patterns the source uses. -/
def pyCount (s pat : String) : Nat :=
  countSubAux pat.data s.data.length s.data

/-- Decimal digit character. -/
def digitChar (n : Nat) : Char :=
  Char.ofNat (48 + n % 10)

/-- Decimal rendering of a natural number, fuelled to stay structural. -/
def natReprAux : Nat → Nat → List Char → List Char
  | 0, _, acc => acc
  | fuel + 1, n, acc =>
    if n < 10 then digitChar n :: acc
    else natReprAux fuel (n / 10) (digitChar (n % 10) :: acc)

/-- Decimal rendering of a natural number, as Python's `f"{n}"`. -/
def natRepr (n : Nat) : String :=
  ⟨natReprAux (n + 1) n []⟩

/-! ### Configuration constants of the source -/

/-- `timeout=600` passed to `proc.communicate` in both gateway functions. -/
def TIMEOUT : Nat := 600

/-- The convergence marker searched for (case-insensitively) in the
critic's output. -/
def CONSENSUS_MARKER : String := "CONSENSUS REACHED"

/-- The transcript header substring counted by `get_round`. -/
def PROPOSER_HEADER : String := "## [PROPOSER]"

/-! ### Data model: state tags and the session store -/

/-- `class State(Enum)` of the source. -/
inductive State where
  | PROPOSER_TURN
  | CRITIC_TURN
  | CONSENSUS
deriving DecidableEq

/-- `State.value`: the canonical persisted string of each tag. -/
def State.value : State → String
  | .PROPOSER_TURN => "PROPOSER_TURN"
  | .CRITIC_TURN => "CRITIC_TURN"
  | .CONSENSUS => "CONSENSUS"

/-- Python's `State(text)` enum lookup: `none` models the `ValueError`
raised on an unrecognized tag (the corrupt-store condition). -/
def parseState (s : String) : Option State :=
  if s = "PROPOSER_TURN" then some .PROPOSER_TURN
  else if s = "CRITIC_TURN" then some .CRITIC_TURN
  else if s = "CONSENSUS" then some .CONSENSUS
  else none

/-- The session store: the contents of the files of `./debate`.
`consensus = none` models an absent `consensus.md`. -/
structure Store where
  goal : String
  state : String
  proposer : String
  critic : String
  history : String
  consensus : Option String
deriving DecidableEq

/-- `get_state`: parse the stripped contents of `state.md`. -/
def get_state (st : Store) : Option State :=
  parseState (pyStrip st.state)

/-- `set_state`: write the tag's canonical string to `state.md`. -/
def set_state (st : Store) (s : State) : Store :=
  { st with state := s.value }

/-- `get_round`: one plus the number of occurrences of `"## [PROPOSER]"`
in `history.md`. -/
def get_round (st : Store) : Nat :=
  pyCount st.history PROPOSER_HEADER + 1

/-- `setup_debate_dir`: the store as initialized for a fresh session.
Python's `goal or default` takes the default when the goal is absent
or the empty string. -/
def setup_debate_dir (goal : Option String) : Store where
  goal :=
    match goal with
    | some g => if g = "" then "# Goal\n\n[Define your goal here]" else g
    | none => "# Goal\n\n[Define your goal here]"
  state := State.PROPOSER_TURN.value
  proposer := "# Proposal\n\n(Awaiting first proposal)"
  critic := "# Critique\n\n(No critique yet - this is Round 1)"
  history := "# Debate History\n\n---\n"
  consensus := none

/-! ### The prompt builder -/

/-- `PROPOSER_SYSTEM.format(round=round_num)`: the proposer instruction
block with the round number spliced in. -/
def PROPOSER_SYSTEM (round : Nat) : String :=
  "You are the PROPOSER in a structured debate. Your job is to propose solutions and refine them based on critique.

## Proposal Format

# Proposal (Round " ++ natRepr round ++ ")

## Summary
[One paragraph overview]

## Detailed Approach
[Specific steps, architecture, implementation details]

## Addressing Previous Critique
[How you addressed each point raised - skip if Round 1]

## Trade-offs Acknowledged
[Known limitations and why they're acceptable]

## Guidelines

- Be specific and actionable
- Address ALL previous critiques explicitly
- Justify trade-offs
- Keep it focused - solve the goal, don't over-engineer
- Output ONLY the proposal, no preamble

## IMPORTANT: Follow Workflow Instructions

If the GOAL contains specific workflow instructions (e.g., \"list 10 ideas first\", \"brainstorm before narrowing\"), you MUST follow them. Read the goal carefully for any process requirements."

/-- `CRITIC_SYSTEM.format(round=round_num)`: the critic instruction block
with the round number spliced in. -/
def CRITIC_SYSTEM (round : Nat) : String :=
  "You are the CRITIC in a structured debate. Your job is to rigorously evaluate proposals and push for better solutions — but also recognize when a proposal is good enough.

## Critique Format

# Critique (Round " ++ natRepr round ++ ")

## Verdict
[NEEDS_REVISION | MINOR_ISSUES | CONSENSUS REACHED]

## What Works Well
[Genuine positives]

## Blocking Issues
[Problems that MUST be fixed - empty if none]

## Suggestions
[Improvements, prioritized]

## Consensus Criteria

Declare \"CONSENSUS REACHED\" as your verdict when:
- The proposal achieves the stated goal
- No blocking issues remain
- Trade-offs are reasonable
- Further iteration has diminishing returns

## IMPORTANT: When Declaring CONSENSUS REACHED

When you declare \"CONSENSUS REACHED\", you MUST include a comprehensive summary section at the end:

### Debate Summary

#### Ideas Considered
[List ALL ideas that were proposed and debated, with one-line descriptions]

#### Debate Progression
[Brief timeline: what was proposed, what was critiqued, how ideas were narrowed down, key turning points]

#### Final Selected Idea
[Name of the selected idea]

#### Key Agreements Made
[Bullet list of all major agreements reached during the debate, including: scope, timeline, pricing, GTM strategy, validation criteria, trade-offs accepted, etc.]

#### Final Idea Details
[Comprehensive description of the final agreed idea with all specifications consolidated in one place]

## Guidelines

- Be constructive, not obstructive
- Be specific with critiques
- Suggest alternatives, don't just criticize
- Don't demand perfection when good enough suffices
- Output ONLY the critique, no preamble

## IMPORTANT: Follow Workflow Instructions

If the GOAL contains specific workflow instructions (e.g., \"pick a few ideas to focus on\", \"debate each idea\"), you MUST follow them. Read the goal carefully for any process requirements."

/-- `build_proposer_prompt`: the full prompt text for the proposer of
round `round_num`, read off the store. -/
def build_proposer_prompt (round_num : Nat) (st : Store) : String :=
  PROPOSER_SYSTEM round_num
    ++ "\n\n---\n\n## GOAL\n\n" ++ st.goal
    ++ "\n\n## DEBATE HISTORY\n\n" ++ st.history
    ++ "\n\n## LATEST CRITIQUE\n\n" ++ st.critic
    ++ "\n\n---\n\nWrite your proposal for Round " ++ natRepr round_num ++ "."

/-- `build_critic_prompt`: the full prompt text for the critic of round
`round_num`, read off the store. -/
def build_critic_prompt (round_num : Nat) (st : Store) : String :=
  CRITIC_SYSTEM round_num
    ++ "\n\n---\n\n## GOAL\n\n" ++ st.goal
    ++ "\n\n## DEBATE HISTORY\n\n" ++ st.history
    ++ "\n\n## LATEST PROPOSAL\n\n" ++ st.proposer
    ++ "\n\n---\n\nEvaluate this proposal for Round " ++ natRepr round_num ++ "."

/-! ### Turn records and the instrumented session

A turn record is what one `append_file("history.md", ...)` call of a turn
function contributes to the transcript: its role and the round number the
header names.  The session carries the store together with this abstract
transcript, so that transcript-shape claims can be stated; the store part
is exactly what the source persists. -/

/-- The two debater roles. -/
inductive Role where
  | proposer
  | critic
deriving DecidableEq

/-- One transcript entry: the role and round number written in its header. -/
structure TurnRec where
  role : Role
  round : Nat
deriving DecidableEq

/-- The store plus the abstract transcript of appended turn records. -/
structure Sess where
  store : Store
  log : List TurnRec
deriving DecidableEq

/-- The chunk `run_proposer_turn` appends to `history.md`. -/
def proposerChunk (round_num : Nat) (timestamp response : String) : String :=
  "\n## [PROPOSER] Round " ++ natRepr round_num ++ " (" ++ timestamp ++ ")\n\n"
    ++ response ++ "\n\n---\n"

/-- The chunk `run_critic_turn` appends to `history.md`. -/
def criticChunk (round_num : Nat) (timestamp response : String) : String :=
  "\n## [CRITIC] Round " ++ natRepr round_num ++ " (" ++ timestamp ++ ")\n\n"
    ++ response ++ "\n\n---\n"

/-- The single well-named convergence predicate:
`"CONSENSUS REACHED" in response.upper()`. -/
def hasConsensusMarker (response : String) : Bool :=
  pyContains (pyUpper response) CONSENSUS_MARKER

/-- The contents written to `consensus.md` on convergence. -/
def consensusContent (round_num : Nat) (response : String) : String :=
  "# Consensus Reached - Round " ++ natRepr round_num ++ "\n\n" ++ response

/-- `run_proposer_turn`, after the agent call returned `response`:
overwrite `proposer.md`, append the turn record, set state to
`CRITIC_TURN`. -/
def run_proposer_turn (s : Sess) (timestamp response : String) : Sess :=
  let round_num := get_round s.store
  let st1 := { s.store with proposer := response }
  let st2 := { st1 with
    history := st1.history ++ proposerChunk round_num timestamp response }
  let st3 := set_state st2 State.CRITIC_TURN
  { store := st3, log := s.log ++ [⟨Role.proposer, round_num⟩] }

/-- `run_critic_turn`, after the agent call returned `response`:
overwrite `critic.md`, append the turn record, then either declare
consensus (writing `consensus.md`) or hand back to the proposer. -/
def run_critic_turn (s : Sess) (timestamp response : String) : Sess :=
  let round_num := get_round s.store - 1
  let st1 := { s.store with critic := response }
  let st2 := { st1 with
    history := st1.history ++ criticChunk round_num timestamp response }
  let st3 :=
    if hasConsensusMarker response then
      { set_state st2 State.CONSENSUS with
        consensus := some (consensusContent round_num response) }
    else
      set_state st2 State.PROPOSER_TURN
  { store := st3, log := s.log ++ [⟨Role.critic, round_num⟩] }

/-! ### The orchestration loop -/

/-- The environment of a run: the outputs the two agent CLIs return call
after call, and the timestamps taken at each turn. -/
structure Oracle where
  pRes : Nat → String
  cRes : Nat → String
  pTs : Nat → String
  cTs : Nat → String

/-- How a run of `run_debate_loop` ends.  `outOfFuel` is a model artifact
of the fuelled recursion and is unreachable with the fuel
`run_debate_loop` supplies. -/
inductive Outcome where
  | consensus
  | budgetExhausted
  | invalidState
  | outOfFuel
deriving DecidableEq

/-- The `while rounds < MAX_ROUNDS` loop of `run_debate_loop`: read the
state, stop on consensus, dispatch the matching turn, and count only
proposer turns against the budget.  `pk` and `ck` index the oracle. -/
def loopAux (o : Oracle) (maxRounds : Nat) :
    Nat → Sess → Nat → Nat → Nat → Sess × Outcome
  | 0, s, _, _, _ => (s, .outOfFuel)
  | fuel + 1, s, rounds, pk, ck =>
    if rounds < maxRounds then
      match get_state s.store with
      | some .CONSENSUS => (s, .consensus)
      | some .PROPOSER_TURN =>
        loopAux o maxRounds fuel (run_proposer_turn s (o.pTs pk) (o.pRes pk))
          (rounds + 1) (pk + 1) ck
      | some .CRITIC_TURN =>
        loopAux o maxRounds fuel (run_critic_turn s (o.cTs ck) (o.cRes ck))
          rounds pk (ck + 1)
      | none => (s, .invalidState)
    else (s, .budgetExhausted)

/-- `run_debate_loop`: the driving loop started with `rounds = 0`.  The
fuel `2 * maxRounds + 2` bounds the iteration count: at most `maxRounds`
proposer turns, each followed by at most one critic turn, one possible
initial critic turn on resume, and the final check. -/
def run_debate_loop (o : Oracle) (maxRounds : Nat) (s : Sess) : Sess × Outcome :=
  loopAux o maxRounds (2 * maxRounds + 2) s 0 0 0

/-- The session a fresh `--goal` start begins from. -/
def initialSess (goal : Option String) : Sess :=
  { store := setup_debate_dir goal, log := [] }

/-! ### `main`: dispatch before the loop starts -/

/-- How `main` ends, seen from the operator. `missingSession` is the
`MissingSessionError` of the design: resume requested with no prior
session (the source prints the error and returns exit code 1). -/
inductive MainOutcome where
  | missingSession
  | missingGoal
  | ranLoop (resumed : Bool)
deriving DecidableEq

/-- What `main` does before (and whether it reaches) `run_debate_loop`. -/
structure MainDispatch where
  outcome : MainOutcome
  filesCreated : Bool
  wipedExisting : Bool
deriving DecidableEq

/-- The setup logic of `main`: resume requires an existing session
directory; a fresh start wipes any existing directory, requires a goal,
and creates the session files. -/
def main_dispatch (resume : Bool) (dirExists : Bool) (goal : Option String) :
    MainDispatch :=
  if resume then
    if dirExists then
      { outcome := .ranLoop true, filesCreated := false, wipedExisting := false }
    else
      { outcome := .missingSession, filesCreated := false, wipedExisting := false }
  else
    match goal with
    | none =>
      { outcome := .missingGoal, filesCreated := false, wipedExisting := dirExists }
    | some _ =>
      { outcome := .ranLoop false, filesCreated := true, wipedExisting := dirExists }

/-! ### The agent gateway: process invocation traces

`call_claude` and `call_codex` spawn an external process in its own
process group and wait with `timeout=600`.  A run of the external process
is modelled by its duration, exit status and channel outputs; the gateway
functions are modelled by the ordered trace of observable actions they
perform, so that ordering claims (kill before raise, delete before
return) can be stated. -/

/-- One run of an invoked external process. -/
structure ProcRun where
  dur : Nat
  rc : Int
  stdout : String
  stderr : String

/-- What the codex process did to the caller-supplied `-o` temp file,
which the gateway pre-creates empty: left it untouched, overwrote it,
or deleted it. -/
inductive FileEffect where
  | untouched
  | wrote (content : String)
  | deleted
deriving DecidableEq

/-- The observable actions of a gateway call, in program order. -/
inductive GEvent where
  | createdTempFile
  | spawned
  | killedProcessGroup
  | raisedTimeout
  | raisedExecError (diag : String)
  | readTempFile
  | readStdoutFallback
  | deletedTempFile
  | returned (out : String)
deriving DecidableEq

/-- `call_claude`: stream the answer from stdout; on timeout kill the
process group and re-raise; on non-zero exit raise with the diagnostic
stderr; otherwise return the stripped stdout. -/
def call_claude (r : ProcRun) : List GEvent :=
  if TIMEOUT < r.dur then
    [.spawned, .killedProcessGroup, .raisedTimeout]
  else if r.rc ≠ 0 then
    [.spawned, .raisedExecError r.stderr]
  else
    [.spawned, .returned (pyStrip r.stdout)]

/-- `call_codex`: pre-create the temp output file, spawn, and on every
exit path delete the temp file (the `finally` block) before returning or
propagating.  After a non-timeout exit the answer is read from the temp
file if it still exists, else from stdout; the exit status is not
inspected. -/
def call_codex (r : ProcRun) (f : FileEffect) : List GEvent :=
  [.createdTempFile, .spawned] ++
    (if TIMEOUT < r.dur then
      [.killedProcessGroup, .deletedTempFile, .raisedTimeout]
    else
      match f with
      | .deleted =>
        [.readStdoutFallback, .deletedTempFile, .returned (pyStrip r.stdout)]
      | .untouched =>
        [.readTempFile, .deletedTempFile, .returned (pyStrip "")]
      | .wrote c =>
        [.readTempFile, .deletedTempFile, .returned (pyStrip c)])

/-! ### Turn executor under a failing gateway

In the source the first persistence action of either turn function comes
after `call_agent` returns: everything before the call only reads the
store.  A failing call therefore leaves the store exactly as it was; the
failure (`subprocess.TimeoutExpired` or the `RuntimeError`) propagates
uncaught. -/

/-- The gateway failures of the design taxonomy. -/
inductive AgentFailure where
  | timeout
  | execError (diag : String)
deriving DecidableEq

/-- `run_proposer_turn` when the agent call may fail: on failure nothing
is persisted and the failure propagates; on success the turn completes. -/
def run_proposer_turnE (s : Sess) (timestamp : String)
    (res : Except AgentFailure String) : Sess × Option AgentFailure :=
  match res with
  | .error e => (s, some e)
  | .ok response => (run_proposer_turn s timestamp response, none)

/-- `run_critic_turn` when the agent call may fail. -/
def run_critic_turnE (s : Sess) (timestamp : String)
    (res : Except AgentFailure String) : Sess × Option AgentFailure :=
  match res with
  | .error e => (s, some e)
  | .ok response => (run_critic_turn s timestamp response, none)

/-! ### Transcript well-formedness: definitions

`goodLog` is the transcript-shape property of the spec: records alternate
proposer/critic starting with the proposer of round 1, proposer rounds
increase by 1 with no gaps or repeats, and each critic record carries the
round of the proposer record it responds to. -/

/-- Alternation checker: `role` is the role expected next, `n` the round
it must carry; a critic record closes round `n` and expects the proposer
of round `n + 1`. -/
def goodAux : Role → Nat → List TurnRec → Bool
  | _, _, [] => true
  | Role.proposer, n, t :: rest =>
    (t.role == Role.proposer && t.round == n) && goodAux Role.critic n rest
  | Role.critic, n, t :: rest =>
    (t.role == Role.critic && t.round == n) && goodAux Role.proposer (n + 1) rest

/-- The transcript-shape invariant claimed by the spec. -/
def goodLog (l : List TurnRec) : Bool :=
  goodAux Role.proposer 1 l

/-- The canonical transcript of `k` completed rounds starting at round
`n`: proposer then critic of round `n`, then the rounds above. -/
def pairsFrom : Nat → Nat → List TurnRec
  | _, 0 => []
  | n, k + 1 => ⟨Role.proposer, n⟩ :: ⟨Role.critic, n⟩ :: pairsFrom (n + 1) k

/-- Occurrence count at the character-list level, with its natural fuel. -/
def countL (pat l : List Char) : Nat :=
  countSubAux pat l.length l

/-- The number of `"## [PROPOSER]"` occurrences in the persisted
transcript - what `get_round` counts. -/
def histCount (st : Store) : Nat :=
  pyCount st.history PROPOSER_HEADER

/-- An agent output that does not itself contain the proposer header
substring that `get_round` counts. -/
def cleanResponse (resp : String) : Prop :=
  pyContains resp PROPOSER_HEADER = false

/-- A timestamp without a `#` character; the timestamps the source writes
are `strftime("%Y-%m-%d %H:%M")` strings, which never contain one. -/
def cleanStamp (ts : String) : Prop :=
  '#' ∉ ts.data

/-- An environment whose agent outputs never contain the proposer header
substring and whose timestamps are hash-free. -/
structure CleanOracle (o : Oracle) : Prop where
  pRes : ∀ i, cleanResponse (o.pRes i)
  cRes : ∀ i, cleanResponse (o.cRes i)
  pTs : ∀ i, cleanStamp (o.pTs i)
  cTs : ∀ i, cleanStamp (o.cTs i)

/-- The loop invariant tying the persisted store to the transcript: in a
proposer-turn or consensus state the transcript is a whole number of
rounds; in a critic-turn state one proposer record of the current round
is pending its critique, and the header count is that round. -/
def SessInv (s : Sess) : Prop :=
  (get_state s.store = some State.PROPOSER_TURN →
    s.log = pairsFrom 1 (histCount s.store)) ∧
  (get_state s.store = some State.CONSENSUS →
    s.log = pairsFrom 1 (histCount s.store)) ∧
  (get_state s.store = some State.CRITIC_TURN →
    1 ≤ histCount s.store ∧
    s.log = pairsFrom 1 (histCount s.store - 1)
      ++ [⟨Role.proposer, histCount s.store⟩]) ∧
  get_state s.store ≠ none

/-- The sessions the orchestration produces: a fresh start, or any number
of (re-)runs of the loop against clean environments. -/
inductive ReachableClean : Sess → Prop where
  | init (goal : Option String) : ReachableClean (initialSess goal)
  | step (s : Sess) (o : Oracle) (maxRounds : Nat) :
      ReachableClean s → CleanOracle o →
      ReachableClean (run_debate_loop o maxRounds s).1

/-- A concrete no-consensus run used against the scenario of C2. -/
def oracleNoConsensus : Oracle where
  pRes := fun _ => "a proposal"
  cRes := fun _ => "keep going"
  pTs := fun _ => "2025-01-01 00:00"
  cTs := fun _ => "2025-01-01 00:00"

/-- A run whose proposer echoes the transcript header substring in its
output, used against C6. -/
def oracleHeaderEcho : Oracle where
  pRes := fun _ => "see ## [PROPOSER] above"
  cRes := fun _ => "keep going"
  pTs := fun _ => "2025-01-01 00:00"
  cTs := fun _ => "2025-01-01 00:00"

/-- The session after the round-1 proposer turn of a fresh debate. -/
def sessAfterP1 : Sess :=
  run_proposer_turn (initialSess (some "g")) "2025-01-01 00:00" "a proposal"

/-! ### Helper lemmas -/

/-- After a proposer turn the persisted state parses as `CRITIC_TURN`. -/
theorem get_state_after_proposer (s : Sess) (ts r : String) :
    get_state (run_proposer_turn s ts r).store = some State.CRITIC_TURN := by
  have h : parseState (pyStrip "CRITIC_TURN") = some State.CRITIC_TURN := by decide
  simp [run_proposer_turn, get_state, set_state, State.value, h]

/-- After a critic turn without the marker the persisted state parses as
`PROPOSER_TURN`. -/
theorem get_state_after_critic_neg (s : Sess) (ts r : String)
    (h : hasConsensusMarker r = false) :
    get_state (run_critic_turn s ts r).store = some State.PROPOSER_TURN := by
  have hp : parseState (pyStrip "PROPOSER_TURN") = some State.PROPOSER_TURN := by decide
  simp [run_critic_turn, get_state, set_state, State.value, h, hp]

/-- After a critic turn with the marker the persisted state parses as
`CONSENSUS`. -/
theorem get_state_after_critic_pos (s : Sess) (ts r : String)
    (h : hasConsensusMarker r = true) :
    get_state (run_critic_turn s ts r).store = some State.CONSENSUS := by
  have hc : parseState (pyStrip "CONSENSUS") = some State.CONSENSUS := by decide
  simp [run_critic_turn, get_state, set_state, State.value, h, hc]

/-- The consensus artifact contents are never empty: they begin with the
header line. -/
theorem consensusContent_ne_empty (r : Nat) (resp : String) :
    consensusContent r resp ≠ "" := by
  intro hEq
  have hd := congrArg String.data hEq
  simp [consensusContent, String.data_append] at hd

/-! ### C1 -/

/-- C1: for every critic turn, if the output contains the consensus marker
case-insensitively, the persisted state becomes `CONSENSUS` and a
non-empty consensus summary is written; otherwise the state becomes
`PROPOSER_TURN` and the consensus artifact is left exactly as it was. -/
theorem critic_turn_consensus_spec (s : Sess) (ts resp : String) :
    (hasConsensusMarker resp = true →
      get_state (run_critic_turn s ts resp).store = some State.CONSENSUS ∧
      ∃ c, (run_critic_turn s ts resp).store.consensus = some c ∧ c ≠ "") ∧
    (hasConsensusMarker resp = false →
      get_state (run_critic_turn s ts resp).store = some State.PROPOSER_TURN ∧
      (run_critic_turn s ts resp).store.consensus = s.store.consensus) := by
  constructor
  · intro h
    refine ⟨get_state_after_critic_pos s ts resp h,
      consensusContent (get_round s.store - 1) resp, ?_,
      consensusContent_ne_empty _ _⟩
    simp [run_critic_turn, h, set_state]
  · intro h
    refine ⟨get_state_after_critic_neg s ts resp h, ?_⟩
    simp [run_critic_turn, h, set_state]

/-- C1 witness: both branches at concrete inputs (a lower-case marker, and
an output without a marker). -/
theorem critic_turn_consensus_spec_witness :
    (get_state (run_critic_turn (initialSess (some "g")) "t"
        "Verdict: Consensus reached today").store = some State.CONSENSUS ∧
      ∃ c, (run_critic_turn (initialSess (some "g")) "t"
        "Verdict: Consensus reached today").store.consensus = some c ∧ c ≠ "") ∧
    (get_state (run_critic_turn (initialSess (some "g")) "t"
        "keep going").store = some State.PROPOSER_TURN ∧
      (run_critic_turn (initialSess (some "g")) "t"
        "keep going").store.consensus = (initialSess (some "g")).store.consensus) :=
  ⟨(critic_turn_consensus_spec (initialSess (some "g")) "t"
      "Verdict: Consensus reached today").1 (by decide),
   (critic_turn_consensus_spec (initialSess (some "g")) "t"
      "keep going").2 (by decide)⟩

/-! ### C2 -/

/-- C2 counterexample: with round budget 2 and a critic that never emits
the marker, the loop runs proposer/critic/proposer only - the budget
check at the top of the `while` fires after the second proposer turn -
so the transcript has 3 entries, not 4, and the persisted state is
`CRITIC_TURN`, not `PROPOSER_TURN`. -/
theorem budget_two_four_entries_cex :
    (run_debate_loop oracleNoConsensus 2 (initialSess (some "g"))).1.log.length ≠ 4 ∧
    (run_debate_loop oracleNoConsensus 2 (initialSess (some "g"))).1.log.length = 3 ∧
    (run_debate_loop oracleNoConsensus 2 (initialSess (some "g"))).1.log.map TurnRec.role =
      [Role.proposer, Role.critic, Role.proposer] ∧
    (run_debate_loop oracleNoConsensus 2 (initialSess (some "g"))).1.store.state =
      "CRITIC_TURN" := by
  decide

/-- C2 amended: for every run with round budget 2 in which the critic
never emits the marker, the loop runs proposer/critic/proposer - the
budget counter reaches 2 at the second proposer turn and the loop stops
before the pending round-2 critic turn - with a budget-exhausted outcome,
without altering the persisted state (it remains `CRITIC_TURN` from the
last transition), and the transcript contains exactly 3 entries. -/
theorem budget_two_no_consensus_run (o : Oracle) (g : Option String)
    (h : ∀ i, hasConsensusMarker (o.cRes i) = false) :
    (run_debate_loop o 2 (initialSess g)).2 = Outcome.budgetExhausted ∧
    (run_debate_loop o 2 (initialSess g)).1.log.map TurnRec.role =
      [Role.proposer, Role.critic, Role.proposer] ∧
    (run_debate_loop o 2 (initialSess g)).1.log.length = 3 ∧
    (run_debate_loop o 2 (initialSess g)).1.store.state = State.CRITIC_TURN.value := by
  have h0 : get_state (initialSess g).store = some State.PROPOSER_TURN := by
    simp [initialSess, get_state, setup_debate_dir, State.value]
    decide
  simp only [run_debate_loop]
  norm_num
  rw [loopAux]
  simp only [h0]
  norm_num
  rw [loopAux]
  simp only [get_state_after_proposer]
  norm_num
  rw [loopAux]
  simp only [get_state_after_critic_neg _ _ _ (h 0)]
  norm_num
  rw [loopAux]
  simp only [get_state_after_proposer]
  norm_num
  simp [run_proposer_turn, run_critic_turn, initialSess, set_state, State.value]

/-- C2 witness: the amended run shape at a concrete no-consensus oracle. -/
theorem budget_two_no_consensus_run_witness :
    (run_debate_loop oracleNoConsensus 2 (initialSess (some "g"))).2 =
      Outcome.budgetExhausted ∧
    (run_debate_loop oracleNoConsensus 2 (initialSess (some "g"))).1.log.map
      TurnRec.role = [Role.proposer, Role.critic, Role.proposer] ∧
    (run_debate_loop oracleNoConsensus 2 (initialSess (some "g"))).1.log.length = 3 ∧
    (run_debate_loop oracleNoConsensus 2 (initialSess (some "g"))).1.store.state =
      State.CRITIC_TURN.value :=
  budget_two_no_consensus_run oracleNoConsensus (some "g")
    (fun i => show hasConsensusMarker "keep going" = false by decide)

/-! ### C3 -/

/-- C3 counterexample: the consensus artifact written for the critic
output `"CONSENSUS REACHED"` is not that output verbatim - a header line
naming the round is prepended. -/
theorem consensus_verbatim_cex :
    (run_critic_turn sessAfterP1 "t"
      "CONSENSUS REACHED").store.consensus ≠ some "CONSENSUS REACHED" ∧
    (run_critic_turn sessAfterP1 "t"
      "CONSENSUS REACHED").store.consensus =
        some "# Consensus Reached - Round 1\n\nCONSENSUS REACHED" := by
  decide

/-- C3 amended: for every critic turn whose output contains the marker,
the consensus artifact written is the header line
`"# Consensus Reached - Round "` with the turn's round number and a blank
line, followed by the critic's full output verbatim as a suffix. -/
theorem consensus_artifact_header_then_output (s : Sess) (ts resp : String)
    (h : hasConsensusMarker resp = true) :
    (run_critic_turn s ts resp).store.consensus =
      some ("# Consensus Reached - Round " ++ natRepr (get_round s.store - 1)
        ++ "\n\n" ++ resp) := by
  simp [run_critic_turn, h, set_state, consensusContent]

/-- C3 witness: the amended artifact shape at a concrete input. -/
theorem consensus_artifact_header_then_output_witness :
    (run_critic_turn (initialSess (some "g")) "t"
      "CONSENSUS REACHED").store.consensus =
      some ("# Consensus Reached - Round "
        ++ natRepr (get_round (initialSess (some "g")).store - 1)
        ++ "\n\n" ++ "CONSENSUS REACHED") :=
  consensus_artifact_header_then_output (initialSess (some "g")) "t"
    "CONSENSUS REACHED" (by decide)

/-! ### C4 -/

/-- C4: a failing agent invocation (timeout or non-zero exit) propagates
its failure while persisting nothing: the transcript, the latest-output
fields and the state are left exactly as before the call, so a resume
builds the identical prompt and re-attempts the identical turn. -/
theorem gateway_failure_no_persistence (s : Sess) (ts : String) (e : AgentFailure) :
    run_proposer_turnE s ts (Except.error e) = (s, some e) ∧
    run_critic_turnE s ts (Except.error e) = (s, some e) ∧
    (run_proposer_turnE s ts (Except.error e)).1.store.history = s.store.history ∧
    (run_proposer_turnE s ts (Except.error e)).1.store.proposer = s.store.proposer ∧
    (run_proposer_turnE s ts (Except.error e)).1.store.state = s.store.state ∧
    (run_critic_turnE s ts (Except.error e)).1.store.critic = s.store.critic ∧
    (run_critic_turnE s ts (Except.error e)).1.store.consensus = s.store.consensus ∧
    build_proposer_prompt (get_round (run_proposer_turnE s ts (Except.error e)).1.store)
        (run_proposer_turnE s ts (Except.error e)).1.store =
      build_proposer_prompt (get_round s.store) s.store ∧
    build_critic_prompt (get_round (run_critic_turnE s ts (Except.error e)).1.store - 1)
        (run_critic_turnE s ts (Except.error e)).1.store =
      build_critic_prompt (get_round s.store - 1) s.store := by
  simp [run_proposer_turnE, run_critic_turnE]

/-! ### C5 -/

/-- C5: every invocation that exceeds the 600-time-unit budget makes the
gateway kill the invoked process group and only then re-raise the timeout
failure, an event distinct from the execution-error failure. -/
theorem timeout_kills_group_before_raise (r : ProcRun) (f : FileEffect)
    (h : TIMEOUT < r.dur) :
    call_claude r =
      [GEvent.spawned, GEvent.killedProcessGroup, GEvent.raisedTimeout] ∧
    call_codex r f =
      [GEvent.createdTempFile, GEvent.spawned, GEvent.killedProcessGroup,
        GEvent.deletedTempFile, GEvent.raisedTimeout] ∧
    (∀ d, (GEvent.raisedTimeout : GEvent) ≠ GEvent.raisedExecError d) := by
  refine ⟨?_, ?_, fun d => by simp⟩
  · simp [call_claude, h]
  · simp [call_codex, h]

/-- C5 witness: a 601-time-unit run of either agent kind. -/
theorem timeout_kills_group_before_raise_witness :
    call_claude ⟨601, 0, "out", "err"⟩ =
      [GEvent.spawned, GEvent.killedProcessGroup, GEvent.raisedTimeout] ∧
    call_codex ⟨601, 0, "out", "err"⟩ FileEffect.untouched =
      [GEvent.createdTempFile, GEvent.spawned, GEvent.killedProcessGroup,
        GEvent.deletedTempFile, GEvent.raisedTimeout] ∧
    (∀ d, (GEvent.raisedTimeout : GEvent) ≠ GEvent.raisedExecError d) :=
  timeout_kills_group_before_raise ⟨601, 0, "out", "err"⟩ FileEffect.untouched
    (by decide)

/-! ### C7 -/

/-- C7: each built prompt is exactly the concatenation of the role
instruction block, the session goal, the full transcript, the single most
recent output of the other role, and the final directive naming the
current round; and it is a deterministic function of those store
contents alone (no hidden state). -/
theorem prompt_build_exact_concatenation (r : Nat) (st st2 : Store) :
    build_proposer_prompt r st =
      PROPOSER_SYSTEM r
        ++ "\n\n---\n\n## GOAL\n\n" ++ st.goal
        ++ "\n\n## DEBATE HISTORY\n\n" ++ st.history
        ++ "\n\n## LATEST CRITIQUE\n\n" ++ st.critic
        ++ "\n\n---\n\nWrite your proposal for Round " ++ natRepr r ++ "." ∧
    build_critic_prompt r st =
      CRITIC_SYSTEM r
        ++ "\n\n---\n\n## GOAL\n\n" ++ st.goal
        ++ "\n\n## DEBATE HISTORY\n\n" ++ st.history
        ++ "\n\n## LATEST PROPOSAL\n\n" ++ st.proposer
        ++ "\n\n---\n\nEvaluate this proposal for Round " ++ natRepr r ++ "." ∧
    (st.goal = st2.goal → st.history = st2.history → st.critic = st2.critic →
      build_proposer_prompt r st = build_proposer_prompt r st2) ∧
    (st.goal = st2.goal → st.history = st2.history → st.proposer = st2.proposer →
      build_critic_prompt r st = build_critic_prompt r st2) := by
  refine ⟨rfl, rfl, ?_, ?_⟩
  · intro h1 h2 h3
    simp [build_proposer_prompt, h1, h2, h3]
  · intro h1 h2 h3
    simp [build_critic_prompt, h1, h2, h3]

/-- C7 witness: the concatenation shape and determinism at concrete
stores differing only in fields the prompts do not read. -/
theorem prompt_build_exact_concatenation_witness :
    build_proposer_prompt 1 (setup_debate_dir (some "g")) =
      PROPOSER_SYSTEM 1
        ++ "\n\n---\n\n## GOAL\n\n" ++ (setup_debate_dir (some "g")).goal
        ++ "\n\n## DEBATE HISTORY\n\n" ++ (setup_debate_dir (some "g")).history
        ++ "\n\n## LATEST CRITIQUE\n\n" ++ (setup_debate_dir (some "g")).critic
        ++ "\n\n---\n\nWrite your proposal for Round " ++ natRepr 1 ++ "." ∧
    build_proposer_prompt 1 (setup_debate_dir (some "g")) =
      build_proposer_prompt 1
        { setup_debate_dir (some "g") with state := "CONSENSUS" } := by
  refine ⟨(prompt_build_exact_concatenation 1 (setup_debate_dir (some "g"))
    (setup_debate_dir (some "g"))).1, ?_⟩
  exact (prompt_build_exact_concatenation 1 (setup_debate_dir (some "g"))
    { setup_debate_dir (some "g") with state := "CONSENSUS" }).2.2.1 rfl rfl rfl

/-! ### C8 -/

/-- C8: every `call_codex` invocation deletes the temp output file on
every exit path - the trace always contains the deletion, and it happens
before the final action, which is either the return of the output or the
propagation of the timeout. -/
theorem codex_temp_deleted_every_path (r : ProcRun) (f : FileEffect) :
    ∃ pre last, call_codex r f = pre ++ [last] ∧
      GEvent.deletedTempFile ∈ pre ∧
      (last = GEvent.raisedTimeout ∨ ∃ out, last = GEvent.returned out) := by
  by_cases h : TIMEOUT < r.dur
  · refine ⟨[GEvent.createdTempFile, GEvent.spawned, GEvent.killedProcessGroup,
      GEvent.deletedTempFile], GEvent.raisedTimeout, ?_, by simp, Or.inl rfl⟩
    simp [call_codex, h]
  · cases f with
    | deleted =>
      refine ⟨[GEvent.createdTempFile, GEvent.spawned, GEvent.readStdoutFallback,
        GEvent.deletedTempFile], GEvent.returned (pyStrip r.stdout), ?_, by simp,
        Or.inr ⟨_, rfl⟩⟩
      simp [call_codex, h]
    | untouched =>
      refine ⟨[GEvent.createdTempFile, GEvent.spawned, GEvent.readTempFile,
        GEvent.deletedTempFile], GEvent.returned (pyStrip ""), ?_, by simp,
        Or.inr ⟨_, rfl⟩⟩
      simp [call_codex, h]
    | wrote c =>
      refine ⟨[GEvent.createdTempFile, GEvent.spawned, GEvent.readTempFile,
        GEvent.deletedTempFile], GEvent.returned (pyStrip c), ?_, by simp,
        Or.inr ⟨_, rfl⟩⟩
      simp [call_codex, h]

/-! ### C9 -/

/-- C9: a resume request with no prior session fails as the
missing-session error, the orchestration loop never starts, and no
session files are created or wiped. -/
theorem resume_without_session_fails (goal : Option String) :
    main_dispatch true false goal =
      { outcome := MainOutcome.missingSession, filesCreated := false,
        wipedExisting := false } ∧
    (∀ b, (main_dispatch true false goal).outcome ≠ MainOutcome.ranLoop b) := by
  refine ⟨by simp [main_dispatch], fun b => by simp [main_dispatch]⟩

/-! ### C10 -/

/-- C10: when the codex process finishes in time but never touches the
temp file that the gateway itself pre-created empty, the file still
exists, so the gateway reads it and returns the empty string; the stdout
fallback is taken exactly when the file is gone at process exit. -/
theorem codex_untouched_file_returns_empty (r : ProcRun)
    (hT : ¬ TIMEOUT < r.dur) (_hrc : r.rc = 0) :
    call_codex r FileEffect.untouched =
      [GEvent.createdTempFile, GEvent.spawned, GEvent.readTempFile,
        GEvent.deletedTempFile, GEvent.returned ""] ∧
    (∀ f, GEvent.readStdoutFallback ∈ call_codex r f ↔ f = FileEffect.deleted) := by
  have hstrip : pyStrip "" = "" := by decide
  constructor
  · simp [call_codex, hT, hstrip]
  · intro f
    cases f <;> simp [call_codex, hT]

/-- C10 witness: a 1-time-unit successful run that leaves the file
untouched. -/
theorem codex_untouched_file_returns_empty_witness :
    call_codex ⟨1, 0, "stream", "err"⟩ FileEffect.untouched =
      [GEvent.createdTempFile, GEvent.spawned, GEvent.readTempFile,
        GEvent.deletedTempFile, GEvent.returned ""] ∧
    (∀ f, GEvent.readStdoutFallback ∈ call_codex ⟨1, 0, "stream", "err"⟩ f ↔
      f = FileEffect.deleted) :=
  codex_untouched_file_returns_empty ⟨1, 0, "stream", "err"⟩ (by decide) rfl

/-! ### Counting occurrences of the proposer header -/

/-- `countSubAux` does not depend on the fuel once it covers the list. -/
theorem countSubAux_congr_fuel (pat : List Char) :
    ∀ f1 f2 l, l.length ≤ f1 → l.length ≤ f2 →
      countSubAux pat f1 l = countSubAux pat f2 l := by
  intro f1
  induction f1 with
  | zero =>
    intro f2 l h1 h2
    have : l = [] := List.eq_nil_of_length_eq_zero (Nat.le_zero.mp h1)
    subst this
    simp [countSubAux]
  | succ f1 ih =>
    intro f2 l h1 h2
    match l with
    | [] => simp [countSubAux]
    | c :: rest =>
      simp only [List.length_cons] at h1 h2
      match f2 with
      | 0 => omega
      | f2 + 1 =>
        simp only [countSubAux]
        split
        · have hdl : (rest.drop (pat.length - 1)).length ≤ f1 := by
            simp [List.length_drop]; omega
          have hdl2 : (rest.drop (pat.length - 1)).length ≤ f2 := by
            simp [List.length_drop]; omega
          rw [ih f2 _ hdl hdl2]
        · rw [ih f2 rest (by omega) (by omega)]

/-- The empty list holds no occurrence. -/
theorem countL_nil (pat : List Char) : countL pat [] = 0 := rfl

/-- One scan step of the non-overlapping count. -/
theorem countL_cons (pat : List Char) (c : Char) (rest : List Char) :
    countL pat (c :: rest) =
      if pat.isPrefixOf (c :: rest) then
        countL pat (rest.drop (pat.length - 1)) + 1
      else
        countL pat rest := by
  show countSubAux pat ((c :: rest).length) (c :: rest) = _
  simp only [List.length_cons, countSubAux]
  split
  · show countSubAux pat rest.length (rest.drop (pat.length - 1)) + 1 = _
    rw [countSubAux_congr_fuel pat rest.length (rest.drop (pat.length - 1)).length
      (rest.drop (pat.length - 1)) (by rw [List.length_drop]; omega) (le_refl _)]
    rfl
  · rfl

/-- A head that differs from the pattern's head starts no occurrence. -/
theorem countL_cons_ne (p : Char) (pt : List Char) (c : Char) (l : List Char)
    (h : p ≠ c) : countL (p :: pt) (c :: l) = countL (p :: pt) l := by
  rw [countL_cons]
  simp [List.isPrefixOf, h]

/-- A leading segment free of the pattern's head character holds no
occurrence and no occurrence straddles its end. -/
theorem countL_append_skip (p : Char) (pt l₁ l₂ : List Char) (h : p ∉ l₁) :
    countL (p :: pt) (l₁ ++ l₂) = countL (p :: pt) l₂ := by
  induction l₁ with
  | nil => simp
  | cons c l₁ ih =>
    have hc : p ≠ c := by
      intro hEq; exact h (hEq ▸ List.mem_cons_self c l₁)
    have hm : p ∉ l₁ := fun hx => h (List.mem_cons_of_mem c hx)
    rw [List.cons_append, countL_cons_ne p pt c _ hc, ih hm]

/-- A list free of the pattern's head character holds no occurrence. -/
theorem countL_zero_of_not_mem (p : Char) (pt l : List Char) (h : p ∉ l) :
    countL (p :: pt) l = 0 := by
  have := countL_append_skip p pt l [] h
  simpa using this

/-- A prefix of `l` is a prefix of `l ++ z`. -/
theorem isPrefixOf_append_of_isPrefixOf (pat l z : List Char)
    (h : pat.isPrefixOf l = true) : pat.isPrefixOf (l ++ z) = true := by
  rw [List.isPrefixOf_iff_prefix] at h ⊢
  exact h.trans (List.prefix_append l z)

/-- A failed prefix test over the whole pattern length stays failed after
appending. -/
theorem isPrefixOf_append_false (pat : List Char) :
    ∀ (a z : List Char), pat.isPrefixOf a = false → pat.length ≤ a.length →
      pat.isPrefixOf (a ++ z) = false := by
  induction pat with
  | nil => intro a z h _; simp [List.isPrefixOf] at h
  | cons p pt ih =>
    intro a z h hlen
    match a with
    | [] => simp at hlen
    | c :: a' =>
      simp only [List.isPrefixOf, Bool.and_eq_false_iff] at h
      rcases h with h | h
      · simp [List.cons_append, List.isPrefixOf, h]
      · simp only [List.cons_append, List.isPrefixOf, Bool.and_eq_false_iff]
        right
        exact ih a' z h (by simpa using hlen)

/-- A newline-free pattern matching at the front of `a ++ '\n' :: b`
matches within `a` alone. -/
theorem isPrefixOf_split_at_nl (pat : List Char) (hnl : '\n' ∉ pat) :
    ∀ (a b : List Char), pat.isPrefixOf (a ++ '\n' :: b) = true →
      pat.isPrefixOf a = true ∧ pat.length ≤ a.length := by
  induction pat with
  | nil => intro a b _; simp [List.isPrefixOf]
  | cons p pt ih =>
    intro a b h
    match a with
    | [] =>
      exfalso
      simp only [List.nil_append, List.isPrefixOf, Bool.and_eq_true, beq_iff_eq] at h
      exact hnl (h.1 ▸ List.mem_cons_self p pt)
    | c :: a' =>
      simp only [List.cons_append, List.isPrefixOf, Bool.and_eq_true] at h
      have hnl' : '\n' ∉ pt := fun hx => hnl (List.mem_cons_of_mem p hx)
      have := ih hnl' a' b h.2
      refine ⟨?_, by simpa using this.2⟩
      simp [List.isPrefixOf, h.1, this.1]

/-- Dropping at most the left part of an append drops within it. -/
theorem drop_append_of_le {α : Type} :
    ∀ (k : Nat) (l₁ l₂ : List α), k ≤ l₁.length →
      (l₁ ++ l₂).drop k = l₁.drop k ++ l₂ := by
  intro k
  induction k with
  | zero => intro l₁ l₂ _; simp
  | succ k ih =>
    intro l₁ l₂ h
    match l₁ with
    | [] => simp at h
    | c :: l₁ => simpa using ih l₁ l₂ (by simpa using h)

/-- Occurrences of a newline-free pattern split around a newline: none
straddles it, so the count of `a ++ '\n' :: b` is the sum of the two
parts' counts. -/
theorem countL_append_nl (pat : List Char) (hnl : '\n' ∉ pat) (hne : pat ≠ []) :
    ∀ (n : Nat) (a b : List Char), a.length ≤ n →
      countL pat (a ++ '\n' :: b) = countL pat a + countL pat ('\n' :: b) := by
  intro n
  induction n with
  | zero =>
    intro a b h
    have ha : a = [] := List.eq_nil_of_length_eq_zero (Nat.le_zero.mp h)
    subst ha
    simp [countL_nil]
  | succ n ih =>
    intro a b h
    match a with
    | [] => simp [countL_nil]
    | c :: a' =>
      simp only [List.cons_append]
      by_cases hpre : pat.isPrefixOf (c :: (a' ++ '\n' :: b)) = true
      · have hpre' : pat.isPrefixOf ((c :: a') ++ '\n' :: b) = true := by
          simpa [List.cons_append] using hpre
        obtain ⟨hp1, hlen⟩ := isPrefixOf_split_at_nl pat hnl (c :: a') b hpre'
        have hlen' : pat.length - 1 ≤ a'.length := by
          have : 1 ≤ pat.length := by
            cases pat with
            | nil => exact absurd rfl hne
            | cons x xs => simp
          simp only [List.length_cons] at hlen
          omega
        have hstep : countL pat (c :: (a' ++ '\n' :: b)) =
            countL pat (a'.drop (pat.length - 1)) + countL pat ('\n' :: b) + 1 := by
          rw [countL_cons, if_pos hpre,
            drop_append_of_le (pat.length - 1) a' ('\n' :: b) hlen',
            ih (a'.drop (pat.length - 1)) b
              (by rw [List.length_drop]; simp only [List.length_cons] at h; omega)]
        have hrhs : countL pat (c :: a') = countL pat (a'.drop (pat.length - 1)) + 1 := by
          rw [countL_cons, if_pos hp1]
        rw [hstep, hrhs]
        omega
      · have hp1 : pat.isPrefixOf (c :: a') = false := by
          by_contra hcon
          have ht : pat.isPrefixOf (c :: a') = true := by
            simpa using hcon
          exact hpre (by simpa [List.cons_append] using
            isPrefixOf_append_of_isPrefixOf pat (c :: a') ('\n' :: b) ht)
        have hstep : countL pat (c :: (a' ++ '\n' :: b)) = countL pat (a' ++ '\n' :: b) := by
          rw [countL_cons, if_neg hpre]
        have hrhs : countL pat (c :: a') = countL pat a' := by
          rw [countL_cons, if_neg (by simp [hp1])]
        rw [hstep, ih a' b (by simp only [List.length_cons] at h; omega), hrhs]

/-- The pattern at the front is one occurrence, and the scan resumes
right after it. -/
theorem countL_self_append (p : Char) (pt z : List Char) :
    countL (p :: pt) ((p :: pt) ++ z) = countL (p :: pt) z + 1 := by
  have hpre : (p :: pt).isPrefixOf (p :: (pt ++ z)) = true := by
    rw [List.isPrefixOf_iff_prefix]
    simp [List.cons_append]
  rw [List.cons_append, countL_cons, if_pos hpre]
  simp only [List.length_cons, Nat.add_sub_cancel]
  rw [List.drop_left']
  rfl

/-- A zero count is exactly the absence of the substring. -/
theorem countL_eq_zero_iff (pat : List Char) (hne : pat ≠ []) :
    ∀ l, countL pat l = 0 ↔ containsSub pat l = false := by
  intro l
  induction l with
  | nil =>
    simp [countL_nil, containsSub]
    intro hEq
    exact absurd hEq hne
  | cons c rest ih =>
    rw [countL_cons]
    simp only [containsSub]
    by_cases hpre : pat.isPrefixOf (c :: rest) = true
    · simp [hpre]
    · simp only [Bool.not_eq_true] at hpre
      simp [hpre, ih]

/-- Decimal digits are never the hash character. -/
theorem digitChar_ne_hash (n : Nat) : digitChar n ≠ '#' := by
  have h10 : n % 10 < 10 := Nat.mod_lt n (by norm_num)
  have hall : ∀ m, m < 10 → Char.ofNat (48 + m) ≠ '#' := by decide
  exact hall (n % 10) h10

/-- The decimal rendering accumulates only digits over a hash-free
accumulator. -/
theorem hash_not_mem_natReprAux :
    ∀ (fuel n : Nat) (acc : List Char), '#' ∉ acc → '#' ∉ natReprAux fuel n acc := by
  intro fuel
  induction fuel with
  | zero =>
    intro n acc h
    simpa [natReprAux] using h
  | succ fuel ih =>
    intro n acc h
    simp only [natReprAux]
    split
    · intro hmem
      rcases List.mem_cons.mp hmem with hEq | hmem2
      · exact digitChar_ne_hash n hEq.symm
      · exact h hmem2
    · refine ih (n / 10) _ ?_
      intro hmem
      rcases List.mem_cons.mp hmem with hEq | hmem2
      · exact digitChar_ne_hash (n % 10) hEq.symm
      · exact h hmem2

/-- A rendered round number never contains a hash character. -/
theorem hash_not_mem_natRepr (n : Nat) : '#' ∉ (natRepr n).data :=
  hash_not_mem_natReprAux (n + 1) n [] (by simp)

/-- The characters of a proposer transcript chunk, with the embedded
header occurrence made explicit. -/
theorem propChunk_data (r : Nat) (ts resp : String) :
    (proposerChunk r ts resp).data =
      '\n' :: (PROPOSER_HEADER.data ++ (" Round ".data ++ ((natRepr r).data
        ++ (" (".data ++ (ts.data
        ++ (')' :: '\n' :: '\n' :: (resp.data ++ ('\n' :: "\n---\n".data)))))))) := by
  simp [proposerChunk, PROPOSER_HEADER, String.data_append, List.append_assoc]

/-- The characters of a critic transcript chunk. -/
theorem critChunk_data (r : Nat) (ts resp : String) :
    (criticChunk r ts resp).data =
      '\n' :: (("## [CRITIC] Round " : String).data ++ ((natRepr r).data
        ++ (" (".data ++ (ts.data
        ++ (')' :: '\n' :: '\n' :: (resp.data ++ ('\n' :: "\n---\n".data))))))) := by
  simp [criticChunk, String.data_append, List.append_assoc]

/-- A proposer chunk built from a clean response and a hash-free
timestamp contains the proposer header exactly once: the occurrence its
own header line carries. -/
theorem countL_propChunk (r : Nat) (ts resp : String)
    (hts : '#' ∉ ts.data)
    (hresp : containsSub PROPOSER_HEADER.data resp.data = false) :
    countL PROPOSER_HEADER.data (proposerChunk r ts resp).data = 1 := by
  rw [propChunk_data]
  have hpd : PROPOSER_HEADER.data = '#' :: "# [PROPOSER]".data := by decide
  rw [hpd]
  rw [countL_cons_ne '#' _ '\n' _ (by decide)]
  rw [countL_self_append]
  have hskip : '#' ∉ (" Round ".data ++ ((natRepr r).data
      ++ (" (".data ++ (ts.data ++ [')', '\n', '\n'])))) := by
    simp only [List.mem_append, List.mem_cons]
    push_neg
    refine ⟨by decide, hash_not_mem_natRepr r, by decide, hts, by decide⟩
  have hsplit : (" Round ".data ++ ((natRepr r).data
        ++ (" (".data ++ (ts.data
        ++ (')' :: '\n' :: '\n' :: (resp.data ++ ('\n' :: "\n---\n".data))))))) =
      (" Round ".data ++ ((natRepr r).data
        ++ (" (".data ++ (ts.data ++ [')', '\n', '\n']))))
        ++ (resp.data ++ ('\n' :: "\n---\n".data)) := by
    simp [List.append_assoc]
  rw [hsplit, countL_append_skip '#' _ _ _ hskip]
  rw [countL_append_nl ('#' :: "# [PROPOSER]".data) (by decide) (by decide)
    resp.data.length resp.data _ (le_refl _)]
  have hz : countL ('#' :: "# [PROPOSER]".data) resp.data = 0 := by
    rw [← hpd]
    exact (countL_eq_zero_iff PROPOSER_HEADER.data (by decide) resp.data).mpr hresp
  rw [hz]
  decide

/-- A critic chunk built from a clean response and a hash-free timestamp
contains no proposer header occurrence. -/
theorem countL_critChunk (r : Nat) (ts resp : String)
    (hts : '#' ∉ ts.data)
    (hresp : containsSub PROPOSER_HEADER.data resp.data = false) :
    countL PROPOSER_HEADER.data (criticChunk r ts resp).data = 0 := by
  rw [critChunk_data]
  have hpd : PROPOSER_HEADER.data = '#' :: "# [PROPOSER]".data := by decide
  rw [hpd]
  rw [countL_cons_ne '#' _ '\n' _ (by decide)]
  have hq1 : ('#' :: "# [PROPOSER]".data).isPrefixOf
      (("## [CRITIC] Round " : String).data ++ ((natRepr r).data
        ++ (" (".data ++ (ts.data
        ++ (')' :: '\n' :: '\n' :: (resp.data ++ ('\n' :: "\n---\n".data))))))) = false := by
    refine isPrefixOf_append_false _ _ _ (by decide) (by decide)
  have hc1 : ("## [CRITIC] Round " : String).data ++ ((natRepr r).data
        ++ (" (".data ++ (ts.data
        ++ (')' :: '\n' :: '\n' :: (resp.data ++ ('\n' :: "\n---\n".data)))))) =
      '#' :: (("# [CRITIC] Round " : String).data ++ ((natRepr r).data
        ++ (" (".data ++ (ts.data
        ++ (')' :: '\n' :: '\n' :: (resp.data ++ ('\n' :: "\n---\n".data))))))) := by
    simp [String.data_append, List.append_assoc]
  rw [hc1] at hq1 ⊢
  rw [countL_cons, if_neg (by simp [hq1])]
  have hq2 : ('#' :: "# [PROPOSER]".data).isPrefixOf
      (("# [CRITIC] Round " : String).data ++ ((natRepr r).data
        ++ (" (".data ++ (ts.data
        ++ (')' :: '\n' :: '\n' :: (resp.data ++ ('\n' :: "\n---\n".data))))))) = false := by
    refine isPrefixOf_append_false _ _ _ (by decide) (by decide)
  have hc2 : ("# [CRITIC] Round " : String).data ++ ((natRepr r).data
        ++ (" (".data ++ (ts.data
        ++ (')' :: '\n' :: '\n' :: (resp.data ++ ('\n' :: "\n---\n".data)))))) =
      '#' :: ((" [CRITIC] Round " : String).data ++ ((natRepr r).data
        ++ (" (".data ++ (ts.data
        ++ (')' :: '\n' :: '\n' :: (resp.data ++ ('\n' :: "\n---\n".data))))))) := by
    simp [String.data_append, List.append_assoc]
  rw [hc2] at hq2 ⊢
  rw [countL_cons, if_neg (by simp [hq2])]
  have hskip : '#' ∉ ((" [CRITIC] Round " : String).data ++ ((natRepr r).data
      ++ (" (".data ++ (ts.data ++ [')', '\n', '\n'])))) := by
    simp only [List.mem_append, List.mem_cons]
    push_neg
    refine ⟨by decide, hash_not_mem_natRepr r, by decide, hts, by decide⟩
  have hsplit : ((" [CRITIC] Round " : String).data ++ ((natRepr r).data
        ++ (" (".data ++ (ts.data
        ++ (')' :: '\n' :: '\n' :: (resp.data ++ ('\n' :: "\n---\n".data))))))) =
      ((" [CRITIC] Round " : String).data ++ ((natRepr r).data
        ++ (" (".data ++ (ts.data ++ [')', '\n', '\n']))))
        ++ (resp.data ++ ('\n' :: "\n---\n".data)) := by
    simp [List.append_assoc]
  rw [hsplit, countL_append_skip '#' _ _ _ hskip]
  rw [countL_append_nl ('#' :: "# [PROPOSER]".data) (by decide) (by decide)
    resp.data.length resp.data _ (le_refl _)]
  have hz : countL ('#' :: "# [PROPOSER]".data) resp.data = 0 := by
    rw [← hpd]
    exact (countL_eq_zero_iff PROPOSER_HEADER.data (by decide) resp.data).mpr hresp
  rw [hz]
  decide

/-- Appending a clean proposer chunk raises the header count by one. -/
theorem pyCount_append_propChunk (h : String) (r : Nat) (ts resp : String)
    (hts : cleanStamp ts) (hresp : cleanResponse resp) :
    pyCount (h ++ proposerChunk r ts resp) PROPOSER_HEADER =
      pyCount h PROPOSER_HEADER + 1 := by
  show countL PROPOSER_HEADER.data (h ++ proposerChunk r ts resp).data =
    countL PROPOSER_HEADER.data h.data + 1
  rw [String.data_append, propChunk_data,
    countL_append_nl PROPOSER_HEADER.data (by decide) (by decide)
      h.data.length h.data _ (le_refl _),
    ← propChunk_data, countL_propChunk r ts resp hts hresp]

/-- Appending a clean critic chunk leaves the header count unchanged. -/
theorem pyCount_append_critChunk (h : String) (r : Nat) (ts resp : String)
    (hts : cleanStamp ts) (hresp : cleanResponse resp) :
    pyCount (h ++ criticChunk r ts resp) PROPOSER_HEADER =
      pyCount h PROPOSER_HEADER := by
  show countL PROPOSER_HEADER.data (h ++ criticChunk r ts resp).data =
    countL PROPOSER_HEADER.data h.data
  rw [String.data_append, critChunk_data,
    countL_append_nl PROPOSER_HEADER.data (by decide) (by decide)
      h.data.length h.data _ (le_refl _),
    ← critChunk_data, countL_critChunk r ts resp hts hresp]
  omega

/-! ### The transcript invariant -/

/-- Extending the canonical transcript by one full round appends the
round's proposer and critic records. -/
theorem pairsFrom_succ (k : Nat) : ∀ n, pairsFrom n (k + 1) =
    pairsFrom n k ++ [⟨Role.proposer, n + k⟩, ⟨Role.critic, n + k⟩] := by
  induction k with
  | zero => intro n; simp [pairsFrom]
  | succ k ih =>
    intro n
    rw [pairsFrom, ih (n + 1)]
    have harith : n + 1 + k = n + (k + 1) := by omega
    rw [harith, pairsFrom]
    simp [List.cons_append]

/-- The alternation checker consumes a canonical transcript segment and
continues past it. -/
theorem goodAux_pairsFrom (k : Nat) : ∀ (n : Nat) (tail : List TurnRec),
    goodAux Role.proposer n (pairsFrom n k ++ tail) =
      goodAux Role.proposer (n + k) tail := by
  induction k with
  | zero => intro n tail; simp [pairsFrom]
  | succ k ih =>
    intro n tail
    rw [pairsFrom]
    simp only [List.cons_append, goodAux]
    simp only [beq_self_eq_true, Bool.and_self, Bool.true_and, List.append_eq]
    rw [ih (n + 1) tail]
    have harith : n + 1 + k = n + (k + 1) := by omega
    rw [harith]

/-- What a proposer turn appends to the persisted transcript. -/
theorem run_proposer_turn_store_history (s : Sess) (ts resp : String) :
    (run_proposer_turn s ts resp).store.history =
      s.store.history ++ proposerChunk (get_round s.store) ts resp := by
  simp [run_proposer_turn, set_state]

/-- The record a proposer turn appends. -/
theorem run_proposer_turn_log (s : Sess) (ts resp : String) :
    (run_proposer_turn s ts resp).log =
      s.log ++ [⟨Role.proposer, get_round s.store⟩] := by
  simp [run_proposer_turn]

/-- What a critic turn appends to the persisted transcript. -/
theorem run_critic_turn_store_history (s : Sess) (ts resp : String) :
    (run_critic_turn s ts resp).store.history =
      s.store.history ++ criticChunk (get_round s.store - 1) ts resp := by
  simp only [run_critic_turn, set_state]
  split <;> rfl

/-- The record a critic turn appends. -/
theorem run_critic_turn_log (s : Sess) (ts resp : String) :
    (run_critic_turn s ts resp).log =
      s.log ++ [⟨Role.critic, get_round s.store - 1⟩] := by
  simp [run_critic_turn]

/-- A clean proposer turn raises the header count by exactly one. -/
theorem histCount_run_proposer (s : Sess) (ts resp : String)
    (hts : cleanStamp ts) (hresp : cleanResponse resp) :
    histCount (run_proposer_turn s ts resp).store = histCount s.store + 1 := by
  show pyCount (run_proposer_turn s ts resp).store.history PROPOSER_HEADER = _
  rw [run_proposer_turn_store_history]
  exact pyCount_append_propChunk s.store.history (get_round s.store) ts resp hts hresp

/-- A clean critic turn leaves the header count unchanged. -/
theorem histCount_run_critic (s : Sess) (ts resp : String)
    (hts : cleanStamp ts) (hresp : cleanResponse resp) :
    histCount (run_critic_turn s ts resp).store = histCount s.store := by
  show pyCount (run_critic_turn s ts resp).store.history PROPOSER_HEADER = _
  rw [run_critic_turn_store_history]
  exact pyCount_append_critChunk s.store.history (get_round s.store - 1) ts resp hts hresp

/-- `get_round` is one more than the header count. -/
theorem get_round_eq (st : Store) : get_round st = histCount st + 1 := rfl

/-- A fresh session satisfies the invariant. -/
theorem SessInv_initial (g : Option String) : SessInv (initialSess g) := by
  have hst : get_state (initialSess g).store = some State.PROPOSER_TURN := by
    simp [initialSess, get_state, setup_debate_dir, State.value]
    decide
  have hcnt : histCount (initialSess g).store = 0 := by
    show pyCount "# Debate History\n\n---\n" PROPOSER_HEADER = 0
    decide
  refine ⟨fun _ => ?_, fun hc => ?_, fun hc => ?_, by rw [hst]; simp⟩
  · rw [hcnt]
    rfl
  · rw [hst] at hc
    simp at hc
  · rw [hst] at hc
    simp at hc

/-- A clean proposer turn from a proposer-turn state preserves the
invariant: the new record carries the incremented round and the state
moves to the critic with that round pending. -/
theorem SessInv_proposer (s : Sess) (ts resp : String) (hInv : SessInv s)
    (hst : get_state s.store = some State.PROPOSER_TURN)
    (hts : cleanStamp ts) (hresp : cleanResponse resp) :
    SessInv (run_proposer_turn s ts resp) := by
  have hlog := hInv.1 hst
  have hcnt := histCount_run_proposer s ts resp hts hresp
  have hst' := get_state_after_proposer s ts resp
  refine ⟨fun hc => ?_, fun hc => ?_, fun _ => ?_, by rw [hst']; simp⟩
  · rw [hst'] at hc
    simp at hc
  · rw [hst'] at hc
    simp at hc
  · constructor
    · omega
    · rw [run_proposer_turn_log, hlog, hcnt, get_round_eq]
      simp

/-- A clean critic turn from a critic-turn state preserves the
invariant: its record closes the pending round whichever way the marker
check goes. -/
theorem SessInv_critic (s : Sess) (ts resp : String) (hInv : SessInv s)
    (hst : get_state s.store = some State.CRITIC_TURN)
    (hts : cleanStamp ts) (hresp : cleanResponse resp) :
    SessInv (run_critic_turn s ts resp) := by
  obtain ⟨hge, hlog⟩ := hInv.2.2.1 hst
  have hcnt := histCount_run_critic s ts resp hts hresp
  have hfull : (run_critic_turn s ts resp).log =
      pairsFrom 1 (histCount s.store) := by
    rw [run_critic_turn_log, hlog, get_round_eq]
    have hsub : histCount s.store + 1 - 1 = histCount s.store := by omega
    rw [hsub]
    have hk : histCount s.store = (histCount s.store - 1) + 1 := by omega
    rw [hk, pairsFrom_succ (histCount s.store - 1) 1]
    have harith : 1 + (histCount s.store - 1) = histCount s.store - 1 + 1 := by omega
    rw [harith]
    simp [List.append_assoc]
  by_cases hm : hasConsensusMarker resp = true
  · have hst' := get_state_after_critic_pos s ts resp hm
    refine ⟨fun hc => ?_, fun _ => ?_, fun hc => ?_, by rw [hst']; simp⟩
    · rw [hst'] at hc
      simp at hc
    · rw [hfull, hcnt]
    · rw [hst'] at hc
      simp at hc
  · have hst' := get_state_after_critic_neg s ts resp (by simpa using hm)
    refine ⟨fun _ => ?_, fun hc => ?_, fun hc => ?_, by rw [hst']; simp⟩
    · rw [hfull, hcnt]
    · rw [hst'] at hc
      simp at hc
    · rw [hst'] at hc
      simp at hc

/-- The driving loop preserves the invariant against a clean
environment, whatever the budget or fuel. -/
theorem SessInv_loopAux (o : Oracle) (maxRounds : Nat) (hc : CleanOracle o) :
    ∀ (fuel : Nat) (s : Sess) (rounds pk ck : Nat), SessInv s →
      SessInv (loopAux o maxRounds fuel s rounds pk ck).1 := by
  intro fuel
  induction fuel with
  | zero => intro s rounds pk ck h; exact h
  | succ fuel ih =>
    intro s rounds pk ck h
    rw [loopAux]
    by_cases hr : rounds < maxRounds
    · rw [if_pos hr]
      rcases hgs : get_state s.store with _ | st
      · exact h
      · cases st with
        | PROPOSER_TURN =>
          exact ih _ _ _ _ (SessInv_proposer s _ _ h hgs (hc.pTs pk) (hc.pRes pk))
        | CRITIC_TURN =>
          exact ih _ _ _ _ (SessInv_critic s _ _ h hgs (hc.cTs ck) (hc.cRes ck))
        | CONSENSUS =>
          exact h
    · rw [if_neg hr]
      exact h

/-- Every session the orchestration can produce against clean
environments satisfies the invariant. -/
theorem SessInv_reachable (s : Sess) (h : ReachableClean s) : SessInv s := by
  induction h with
  | init g => exact SessInv_initial g
  | step s o maxRounds _ hc ih =>
    exact SessInv_loopAux o maxRounds hc _ s 0 0 0 ih

/-- A whole number of canonical rounds is well-formed. -/
theorem goodLog_pairsFrom (k : Nat) : goodLog (pairsFrom 1 k) = true := by
  show goodAux Role.proposer 1 (pairsFrom 1 k) = true
  rw [← List.append_nil (pairsFrom 1 k), goodAux_pairsFrom k 1 []]
  rfl

/-- Canonical rounds with one pending proposer record are well-formed. -/
theorem goodLog_pairsFrom_pending (k : Nat) :
    goodLog (pairsFrom 1 k ++ [⟨Role.proposer, k + 1⟩]) = true := by
  show goodAux Role.proposer 1 _ = true
  rw [goodAux_pairsFrom k 1 [⟨Role.proposer, k + 1⟩]]
  have harith : 1 + k = k + 1 := by omega
  rw [harith]
  simp [goodAux]

/-- The invariant yields the claimed transcript shape. -/
theorem goodLog_of_SessInv (s : Sess) (h : SessInv s) : goodLog s.log = true := by
  rcases hgs : get_state s.store with _ | st
  · exact absurd hgs h.2.2.2
  · cases st with
    | PROPOSER_TURN =>
      rw [h.1 hgs]
      exact goodLog_pairsFrom _
    | CONSENSUS =>
      rw [h.2.1 hgs]
      exact goodLog_pairsFrom _
    | CRITIC_TURN =>
      obtain ⟨hge, hlog⟩ := h.2.2.1 hgs
      rw [hlog]
      have hk : histCount s.store = (histCount s.store - 1) + 1 := by omega
      rw [hk]
      exact goodLog_pairsFrom_pending _

/-! ### C6 -/

/-- C6 counterexample: when the round-1 proposer output itself contains
the substring `"## [PROPOSER]"`, the substring-count round numbering
breaks: the session reached by a 2-round run logs proposer round 1,
critic round 2 (not the round 1 it responds to), proposer round 3
(skipping 2), violating the claimed ordering invariant. -/
theorem transcript_order_cex :
    goodLog ((run_debate_loop oracleHeaderEcho 2 (initialSess (some "g"))).1.log) = false ∧
    (run_debate_loop oracleHeaderEcho 2 (initialSess (some "g"))).1.log =
      [⟨Role.proposer, 1⟩, ⟨Role.critic, 2⟩, ⟨Role.proposer, 3⟩] := by
  set_option maxRecDepth 4096 in decide

/-- C6 amended: for every session produced from a fresh start by any
runs of the loop in which no agent output contains the substring
`"## [PROPOSER]"` (timestamps, digit-formatted by the source, never do),
the transcript alternates proposer/critic starting with proposer round 1,
proposer rounds form `1..k` with no gaps or repeats, and each critic
record carries the round of the proposer record it responds to. -/
theorem transcript_wellformed_of_clean (s : Sess) (h : ReachableClean s) :
    goodLog s.log = true :=
  goodLog_of_SessInv s (SessInv_reachable s h)

/-- C6 witness: the transcript shape of a concrete clean 2-round run. -/
theorem transcript_wellformed_of_clean_witness :
    goodLog ((run_debate_loop oracleNoConsensus 2 (initialSess (some "g"))).1.log) = true :=
  transcript_wellformed_of_clean _
    (ReachableClean.step _ oracleNoConsensus 2 (ReachableClean.init (some "g"))
      ⟨fun i => show pyContains "a proposal" PROPOSER_HEADER = false by decide,
       fun i => show pyContains "keep going" PROPOSER_HEADER = false by decide,
       fun i => show '#' ∉ ("2025-01-01 00:00" : String).data by decide,
       fun i => show '#' ∉ ("2025-01-01 00:00" : String).data by decide⟩)

end DebateWatcher
